import Mathlib

/-!
Verification of the TrainingTimer terminal countdown timer
(source: timer_v0.2.2.py, class TerminalTimer).

The Python source is shallowly embedded below:
* the notification dispatcher `play_time_notification` /
  `is_overlapping_with_other_notifications` as pure functions returning
  the list of sound playbacks performed in one call (audio files are
  assumed present, matching the spec's abstract Notifier collaborator);
* the countdown loop `countdown` as a step function over an explicit
  timer state, driven by a list of per-iteration environment inputs
  (polled key / user interrupt), producing a trace of loop iterations
  and an outcome;
* the terminal raw-mode acquire/release logic of `countdown` as a
  counter of `termios.tcsetattr` restore calls per exit path;
* `log_timer_stop` over an explicit list of log entries;
* the post-completion reminder thread `start_reminder_thread` /
  `stop_reminder_thread` both as a phase schedule (for cancellation
  latency) and as a small interleaving system with the shared
  `reminder_active` flag (for the at-most-one-loop question).
-/

/-- The distinct audio clips the timer can play (the `voice/*.mp3`
files referenced by the source). -/
inductive Sound where
  | half50
  | end15min
  | end10min
  | end5min
  | end3min
  | end1min
  | end30sec
  | end10sec
  | beep
  | completeSound
  | reminderSound
deriving DecidableEq

/-- The fixed notification threshold table of
`is_overlapping_with_other_notifications` (seconds remaining):
15, 10, 5, 3, 1 minutes, 30 and 10 seconds. -/
def notification_times : List Nat :=
  [15 * 60, 10 * 60, 5 * 60, 3 * 60, 1 * 60, 30, 10]

/-- Embedding of `TerminalTimer.is_overlapping_with_other_notifications`:
membership of the remaining-seconds value in the fixed threshold table. -/
def is_overlapping_with_other_notifications (remaining_seconds : Nat) : Bool :=
  decide (remaining_seconds ∈ notification_times)

/-- The fixed-threshold part of `TerminalTimer.play_time_notification`
(the chain of checks after the half-duration check): each branch plays
its clip and returns; the 3-minute and 1-minute clips are played twice
in sequence; the 15-minute clip only fires for timers of at least 30
minutes. -/
def fixed_table_notification (remaining_seconds total_seconds : Nat) : List Sound :=
  if remaining_seconds = 15 * 60 ∧ 30 * 60 ≤ total_seconds then [Sound.end15min]
  else if remaining_seconds = 10 * 60 then [Sound.end10min]
  else if remaining_seconds = 5 * 60 then [Sound.end5min]
  else if remaining_seconds = 3 * 60 then [Sound.end3min, Sound.end3min]
  else if remaining_seconds = 1 * 60 then [Sound.end1min, Sound.end1min]
  else if remaining_seconds = 30 then [Sound.end30sec]
  else if remaining_seconds = 10 then [Sound.end10sec]
  else []

/-- Embedding of `TerminalTimer.play_time_notification`: the
half-duration check comes first in the source and returns if it plays;
when the half threshold does not fire (either `remaining` is not
`total // 2`, or it coincides with a fixed threshold and is
suppressed), control falls through to the fixed threshold chain. -/
def play_time_notification (remaining_seconds total_seconds : Nat) : List Sound :=
  if remaining_seconds = total_seconds / 2 ∧
      is_overlapping_with_other_notifications remaining_seconds = false
  then [Sound.half50]
  else fixed_table_notification remaining_seconds total_seconds

/-- Number of distinct sounds occurring in a playback list. -/
def distinct_sounds (l : List Sound) : Nat :=
  l.dedup.length

/-- The fixed-table label attached to a fixed threshold value, read off
the branches of `play_time_notification`. -/
def fixed_label (r : Nat) : Option Sound :=
  if r = 15 * 60 then some Sound.end15min
  else if r = 10 * 60 then some Sound.end10min
  else if r = 5 * 60 then some Sound.end5min
  else if r = 3 * 60 then some Sound.end3min
  else if r = 1 * 60 then some Sound.end1min
  else if r = 30 then some Sound.end30sec
  else if r = 10 then some Sound.end10sec
  else none

lemma fixed_table_shape (r t : Nat) :
    fixed_table_notification r t = [] ∨
      ∃ s, fixed_table_notification r t = [s] ∨
        fixed_table_notification r t = [s, s] := by
  unfold fixed_table_notification
  repeat' split
  all_goals first
    | exact Or.inl rfl
    | exact Or.inr ⟨_, Or.inl rfl⟩
    | exact Or.inr ⟨_, Or.inr rfl⟩

lemma play_shape (r t : Nat) :
    play_time_notification r t = [] ∨
      ∃ s, play_time_notification r t = [s] ∨
        play_time_notification r t = [s, s] := by
  unfold play_time_notification
  split
  · exact Or.inr ⟨_, Or.inl rfl⟩
  · exact fixed_table_shape r t

lemma distinct_sounds_le_one (l : List Sound)
    (h : l = [] ∨ ∃ s, l = [s] ∨ l = [s, s]) :
    distinct_sounds l ≤ 1 := by
  rcases h with h | ⟨s, h | h⟩ <;> subst h <;> simp [distinct_sounds]

lemma half50_not_mem_fixed (r t : Nat) :
    Sound.half50 ∉ fixed_table_notification r t := by
  unfold fixed_table_notification
  repeat' split
  all_goals simp

lemma play_collision_eq_fixed (r t : Nat) (h : r ∈ notification_times) :
    play_time_notification r t = fixed_table_notification r t := by
  unfold play_time_notification
  rw [if_neg]
  rintro ⟨-, hfalse⟩
  simp [is_overlapping_with_other_notifications, h] at hfalse

lemma distinct_sounds_single (s : Sound) : distinct_sounds [s] = 1 := by
  simp [distinct_sounds]

lemma distinct_sounds_pair (s : Sound) : distinct_sounds [s, s] = 1 := by
  simp [distinct_sounds, List.dedup_cons_of_mem]

/-- C2: each call of `play_time_notification` selects at most one distinct
notification to play, and whenever the dynamic half-duration threshold
`total / 2` coincides with a fixed threshold, the call behaves exactly as
the fixed table alone: the fixed-table match plays and the dynamic
half-duration notification is suppressed for that tick. -/
theorem notification_at_most_one_and_fixed_wins (r t : Nat) :
    distinct_sounds (play_time_notification r t) ≤ 1 ∧
      (t / 2 ∈ notification_times →
        play_time_notification r t = fixed_table_notification r t) := by
  constructor
  · exact distinct_sounds_le_one _ (play_shape r t)
  · intro ht
    by_cases hr : r = t / 2
    · subst hr
      exact play_collision_eq_fixed _ _ ht
    · unfold play_time_notification
      rw [if_neg]
      rintro ⟨h1, -⟩
      exact hr h1

/-- Witness for C2 at the collision input remaining = 600, total = 1200. -/
theorem notification_at_most_one_and_fixed_wins_witness :
    distinct_sounds (play_time_notification 600 1200) ≤ 1 ∧
      play_time_notification 600 1200 = fixed_table_notification 600 1200 :=
  ⟨(notification_at_most_one_and_fixed_wins 600 1200).1,
    (notification_at_most_one_and_fixed_wins 600 1200).2 (by decide)⟩

/-- C3: at remaining = `total / 2`, the half-duration notification fires
iff `total / 2` equals none of the fixed threshold values; on an exact
collision only the fixed-label notification fires, as a single distinct
notification event (e.g. total = 1200 gives half = 600 and only the
10-minute clip, total = 1800 gives half = 900 and only the 15-minute
clip). -/
theorem half_duration_fires_iff_no_collision (total : Nat) :
    (Sound.half50 ∈ play_time_notification (total / 2) total ↔
        total / 2 ∉ notification_times) ∧
      (total / 2 ∈ notification_times →
        (play_time_notification (total / 2) total).head? = fixed_label (total / 2) ∧
          distinct_sounds (play_time_notification (total / 2) total) = 1) := by
  by_cases h : total / 2 ∈ notification_times
  · rw [play_collision_eq_fixed _ _ h]
    refine ⟨⟨fun hmem => absurd hmem (half50_not_mem_fixed _ _), fun hn => absurd h hn⟩, ?_⟩
    intro _
    have h' := h
    simp only [notification_times, List.mem_cons, List.mem_singleton,
      List.not_mem_nil, or_false] at h'
    rcases h' with h' | h' | h' | h' | h' | h' | h'
    · have h30 : 30 * 60 ≤ total := by omega
      rw [h']
      simp [fixed_table_notification, fixed_label, h30, distinct_sounds_single]
    · rw [h']
      simp [fixed_table_notification, fixed_label, distinct_sounds_single]
    · rw [h']
      simp [fixed_table_notification, fixed_label, distinct_sounds_single]
    · rw [h']
      simp [fixed_table_notification, fixed_label, distinct_sounds_pair]
    · rw [h']
      simp [fixed_table_notification, fixed_label, distinct_sounds_pair]
    · rw [h']
      simp [fixed_table_notification, fixed_label, distinct_sounds_single]
    · rw [h']
      simp [fixed_table_notification, fixed_label, distinct_sounds_single]
  · have hov : is_overlapping_with_other_notifications (total / 2) = false := by
      simp [is_overlapping_with_other_notifications, h]
    have hplay : play_time_notification (total / 2) total = [Sound.half50] := by
      unfold play_time_notification
      rw [if_pos ⟨rfl, hov⟩]
    rw [hplay]
    exact ⟨⟨fun _ => h, fun _ => by simp⟩, fun hc => absurd hc h⟩

/-- Witness for C3 at total = 1200 (collision: half = 600, only the
10-minute notification) and total = 1800 (collision: half = 900, only
the 15-minute notification). -/
theorem half_duration_fires_iff_no_collision_witness :
    ((play_time_notification (1200 / 2) 1200).head? = fixed_label (1200 / 2) ∧
        distinct_sounds (play_time_notification (1200 / 2) 1200) = 1) ∧
      ((play_time_notification (1800 / 2) 1800).head? = fixed_label (1800 / 2) ∧
        distinct_sounds (play_time_notification (1800 / 2) 1800) = 1) :=
  ⟨(half_duration_fires_iff_no_collision 1200).2 (by decide),
    (half_duration_fires_iff_no_collision 1800).2 (by decide)⟩

/-- Embedding of `TerminalTimer._toggle_pause` on the `is_paused` flag:
the flag is negated under the pause lock. -/
def toggle_pause (is_paused : Bool) : Bool :=
  !is_paused

/-- C10: toggling pause twice restores any pause state, and a single
toggle always changes the state. -/
theorem toggle_pause_involution (b : Bool) :
    toggle_pause (toggle_pause b) = b ∧ toggle_pause b ≠ b := by
  cases b <;> simp [toggle_pause]

/-- One iteration's environment input for the countdown loop: the
result of `_check_keyboard_input` (no key, the pause key `p`, or some
other key, which the loop ignores), or a `KeyboardInterrupt` raised by
the user during the iteration. -/
inductive Input where
  | noKey
  | keyP
  | keyOther
  | interrupt
deriving DecidableEq

/-- The mutable state of one `countdown` session: the `remaining_seconds`
local variable and the shared `is_paused` flag. -/
structure TimerState where
  remaining : Nat
  is_paused : Bool
deriving DecidableEq

/-- Record of one executed loop iteration: the remaining seconds and
pause flag it ran with, the notifications played by
`play_time_notification`, whether the near-zero beep played, and
whether the iteration slept one second and decremented (`ticked`). -/
structure IterLog where
  remaining : Nat
  is_paused : Bool
  notif : List Sound
  beeped : Bool
  ticked : Bool
deriving DecidableEq

/-- Session outcome of `countdown`: normal completion, or the
`KeyboardInterrupt` path with the remaining seconds at interruption. -/
inductive Outcome where
  | completed
  | stopped (remaining : Nat)
deriving DecidableEq

/-- Result of running the loop on a finite input list: either the loop
exited with an outcome, or the modeled inputs ran out while the session
was still going, leaving a state. -/
inductive RunOut where
  | out (o : Outcome)
  | going (s : TimerState)
deriving DecidableEq

/-- Embedding of the `while remaining_seconds > 0 and self.is_running`
loop of `TerminalTimer.countdown` (lines 432-460), one input per
iteration: poll the keyboard, toggle pause on `p`, then — only when not
paused — render, play threshold notifications, beep during the last 5
seconds, sleep one second and decrement; when paused, only render and
sleep briefly.  `is_running` only ever becomes false via
`KeyboardInterrupt`, modeled as the `interrupt` input exiting to
`Outcome.stopped`. -/
def next_paused (i : Input) (is_paused : Bool) : Bool :=
  if i = Input.keyP then !is_paused else is_paused

def countdown_loop (total : Nat) : List Input → TimerState → List IterLog × RunOut
  | [], s =>
    if s.remaining = 0 then ([], RunOut.out Outcome.completed)
    else ([], RunOut.going s)
  | i :: rest, s =>
    if s.remaining = 0 then ([], RunOut.out Outcome.completed)
    else if i = Input.interrupt then ([], RunOut.out (Outcome.stopped s.remaining))
    else match next_paused i s.is_paused with
      | true =>
        have r := countdown_loop total rest ⟨s.remaining, true⟩
        (⟨s.remaining, true, [], false, false⟩ :: r.1, r.2)
      | false =>
        have r := countdown_loop total rest ⟨s.remaining - 1, false⟩
        (⟨s.remaining, false, play_time_notification s.remaining total,
            decide (s.remaining ≤ 5), true⟩ :: r.1, r.2)

/-- The externally visible actions of one session of the main program,
in order: `get_user_input` stops any reminder thread, `main` writes the
start log, each unpaused loop iteration consumes one tick, and the exit
path runs its finalization (restore terminal, render, sound, log,
reminder start). -/
inductive TimerAction where
  | stopReminder
  | logStart
  | tick
  | renderComplete
  | playCompleteSound
  | logComplete
  | startReminder
  | renderStop
  | logStop (remaining : Nat)
  | restoreTerminal
deriving DecidableEq

/-- Finalization actions of `countdown` per outcome, in source order:
completion (lines 462-500) restores the terminal, renders the completion
screen, plays the completion clip, updates the log and starts the
reminder thread; interruption (lines 502-529) restores the terminal,
renders the stop screen and logs the stop with the remaining seconds. -/
def session_final_actions : Outcome → List TimerAction
  | Outcome.completed =>
      [TimerAction.restoreTerminal, TimerAction.renderComplete, TimerAction.playCompleteSound,
        TimerAction.logComplete, TimerAction.startReminder]
  | Outcome.stopped r =>
      [TimerAction.restoreTerminal, TimerAction.renderStop, TimerAction.logStop r]

lemma countdown_run_no_input (total k : Nat) :
    countdown_loop total (List.replicate k Input.noKey) ⟨k, false⟩ =
      ((List.range k).reverse.map (fun m =>
          ⟨m + 1, false, play_time_notification (m + 1) total,
            decide (m + 1 ≤ 5), true⟩),
        RunOut.out Outcome.completed) := by
  induction k with
  | zero => simp [countdown_loop]
  | succ n ih =>
    rw [List.replicate_succ, List.range_succ]
    simp [countdown_loop, next_paused, ih]

/-- C1: for every `total ≥ 1`, running the countdown with no key input
and no interruption performs exactly `total` decrement ticks, never
sees `remaining = 0` inside the loop (so `remaining = 0` is reached
exactly once, at the completed exit), and takes the Completed exit
path: restore terminal, render the completion screen, play the
completion notification, finalize the log, start the reminder loop. -/
theorem countdown_uninterrupted_completes (total : Nat) (h : 1 ≤ total) :
    (countdown_loop total (List.replicate total Input.noKey) ⟨total, false⟩).2 =
        RunOut.out Outcome.completed ∧
      ((countdown_loop total (List.replicate total Input.noKey) ⟨total, false⟩).1.countP
          (fun it => it.ticked)) = total ∧
      ((countdown_loop total (List.replicate total Input.noKey) ⟨total, false⟩).1.countP
          (fun it => it.remaining == 0)) = 0 ∧
      session_final_actions Outcome.completed =
        [TimerAction.restoreTerminal, TimerAction.renderComplete,
          TimerAction.playCompleteSound, TimerAction.logComplete,
          TimerAction.startReminder] := by
  rw [countdown_run_no_input]
  refine ⟨rfl, ?_, ?_, rfl⟩
  · simp [List.countP_map, Function.comp_def]
  · simp [List.countP_map, Function.comp_def]

/-- Witness for C1 at total = 3. -/
theorem countdown_uninterrupted_completes_witness :
    (countdown_loop 3 (List.replicate 3 Input.noKey) ⟨3, false⟩).2 =
        RunOut.out Outcome.completed ∧
      ((countdown_loop 3 (List.replicate 3 Input.noKey) ⟨3, false⟩).1.countP
          (fun it => it.ticked)) = 3 ∧
      ((countdown_loop 3 (List.replicate 3 Input.noKey) ⟨3, false⟩).1.countP
          (fun it => it.remaining == 0)) = 0 ∧
      session_final_actions Outcome.completed =
        [TimerAction.restoreTerminal, TimerAction.renderComplete,
          TimerAction.playCompleteSound, TimerAction.logComplete,
          TimerAction.startReminder] :=
  countdown_uninterrupted_completes 3 (by decide)

lemma countdown_paused_stays (total k r : Nat) (hr : r ≠ 0) :
    countdown_loop total (List.replicate k Input.noKey) ⟨r, true⟩ =
      (List.replicate k ⟨r, true, [], false, false⟩, RunOut.going ⟨r, true⟩) := by
  induction k with
  | zero => simp [countdown_loop, hr]
  | succ n ih => simp [List.replicate_succ, countdown_loop, next_paused, hr, ih]

/-- C5: pausing the countdown at any remaining value `r > 0` (the `p`
key) and then sitting through `k` paused poll cycles leaves the state
exactly at `remaining = r`, still paused: no paused iteration
decrements, plays a notification, beeps, or ticks. -/
theorem pause_preserves_remaining (total r k : Nat) (h : 0 < r) :
    countdown_loop total (Input.keyP :: List.replicate k Input.noKey) ⟨r, false⟩ =
      (List.replicate (k + 1) ⟨r, true, [], false, false⟩,
        RunOut.going ⟨r, true⟩) := by
  have hr : r ≠ 0 := by omega
  simp [countdown_loop, next_paused, hr, countdown_paused_stays total k r hr, List.replicate_succ]

/-- Witness for C5: pause at remaining = 5 of a 10-second timer, four
paused poll cycles recorded, remaining still 5 at resume. -/
theorem pause_preserves_remaining_witness :
    countdown_loop 10 (Input.keyP :: List.replicate 3 Input.noKey) ⟨5, false⟩ =
      (List.replicate 4 ⟨5, true, [], false, false⟩, RunOut.going ⟨5, true⟩) :=
  pause_preserves_remaining 10 5 3 (by decide)

/-- Log entry statuses written by the source (`'시작'`, `'완료'`,
`'중지'`). -/
inductive LogStatus where
  | started
  | finishedStatus
  | stoppedStatus
deriving DecidableEq

/-- The fields of a session log entry that the timer logic reads or
writes (`log_timer_start` / `log_timer_complete` / `log_timer_stop`);
date and time strings are display-only and omitted. -/
structure LogEntry where
  number : Nat
  timer_duration : Nat
  task : String
  status : LogStatus
  completed : Bool
  remaining_seconds : Option Nat
deriving DecidableEq

/-- Embedding of `TerminalTimer.log_timer_stop`: walk the log list and
update the first entry whose `number` matches, setting status to
stopped, `completed` to false and `remaining_seconds` to the remaining
seconds at interruption; the `break` stops after the first match. -/
def log_timer_stop (logs : List LogEntry) (log_number remaining_seconds : Nat) :
    List LogEntry :=
  match logs with
  | [] => []
  | e :: rest =>
    if e.number = log_number then
      { e with
        status := LogStatus.stoppedStatus
        completed := false
        remaining_seconds := some remaining_seconds } :: rest
    else e :: log_timer_stop rest log_number remaining_seconds

lemma log_timer_stop_find (logs : List LogEntry) (n r : Nat) (e : LogEntry)
    (h : logs.find? (fun x => x.number == n) = some e) :
    (log_timer_stop logs n r).find? (fun x => x.number == n) =
      some { e with
        status := LogStatus.stoppedStatus
        completed := false
        remaining_seconds := some r } := by
  induction logs with
  | nil => simp at h
  | cons a rest ih =>
    by_cases ha : a.number = n
    · rw [List.find?_cons_of_pos _ (by simp [ha])] at h
      cases h
      unfold log_timer_stop
      rw [if_pos ha]
      exact List.find?_cons_of_pos _ (by simp [ha])
    · rw [List.find?_cons_of_neg _ (by simp [ha])] at h
      unfold log_timer_stop
      rw [if_neg ha]
      rw [List.find?_cons_of_neg _ (by simp [ha])]
      exact ih h

/-- C7: a `KeyboardInterrupt` arriving while `remaining = r > 0` makes
the loop exit immediately with outcome Stopped(r); the stopped exit
path restores the terminal, renders the stop screen and runs
`log_timer_stop`, which updates the session's log entry to
`completed = false` and `remaining_seconds = r`. -/
theorem cancellation_yields_stopped :
    (∀ (total : Nat) (inputs : List Input) (r : Nat) (b : Bool), 0 < r →
        countdown_loop total (Input.interrupt :: inputs) ⟨r, b⟩ =
          ([], RunOut.out (Outcome.stopped r))) ∧
      (∀ r : Nat, session_final_actions (Outcome.stopped r) =
        [TimerAction.restoreTerminal, TimerAction.renderStop,
          TimerAction.logStop r]) ∧
      (∀ (logs : List LogEntry) (n r : Nat) (e : LogEntry),
        logs.find? (fun x => x.number == n) = some e →
          (log_timer_stop logs n r).find? (fun x => x.number == n) =
            some { e with
              status := LogStatus.stoppedStatus
              completed := false
              remaining_seconds := some r }) := by
  refine ⟨?_, fun _ => rfl, fun logs n r e h => log_timer_stop_find logs n r e h⟩
  intro total inputs r b hr
  have h0 : r ≠ 0 := by omega
  simp [countdown_loop, next_paused, h0]

/-- Witness for C7: cancellation at remaining = 437 of a 600-second
session yields Stopped(437) and the log entry number 1 records
remaining 437, not completed. -/
theorem cancellation_yields_stopped_witness :
    countdown_loop 600 (Input.interrupt :: []) ⟨437, false⟩ =
        ([], RunOut.out (Outcome.stopped 437)) ∧
      session_final_actions (Outcome.stopped 437) =
        [TimerAction.restoreTerminal, TimerAction.renderStop,
          TimerAction.logStop 437] ∧
      (log_timer_stop [⟨1, 600, "demo", LogStatus.started, false, none⟩] 1 437).find?
          (fun x => x.number == 1) =
        some ⟨1, 600, "demo", LogStatus.stoppedStatus, false, some 437⟩ :=
  ⟨cancellation_yields_stopped.1 600 [] 437 false (by decide),
    cancellation_yields_stopped.2.1 437,
    by simpa using cancellation_yields_stopped.2.2 [⟨1, 600, "demo", LogStatus.started, false, none⟩] 1 437 ⟨1, 600, "demo", LogStatus.started, false, none⟩ rfl⟩

/-- The unique remaining-seconds value at which a given notification
clip can fire during a session of the given total duration, read off
the equality guards of `play_time_notification`; clips that the
dispatcher never plays are mapped to 0. -/
def notif_trigger (n : Sound) (total : Nat) : Nat :=
  match n with
  | Sound.half50 => total / 2
  | Sound.end15min => 15 * 60
  | Sound.end10min => 10 * 60
  | Sound.end5min => 5 * 60
  | Sound.end3min => 3 * 60
  | Sound.end1min => 1 * 60
  | Sound.end30sec => 30
  | Sound.end10sec => 10
  | _ => 0

lemma mem_play_eq_trigger (n : Sound) (r t : Nat)
    (h : n ∈ play_time_notification r t) :
    r = notif_trigger n t := by
  unfold play_time_notification at h
  split at h
  · next hc =>
      simp only [List.mem_singleton] at h
      subst h
      exact hc.1
  · unfold fixed_table_notification at h
    repeat' split at h
    all_goals simp_all [notif_trigger]

lemma countdown_trace_remaining_le (total : Nat) (inputs : List Input)
    (s : TimerState) :
    ∀ it ∈ (countdown_loop total inputs s).1, it.remaining ≤ s.remaining := by
  induction inputs generalizing s with
  | nil =>
    intro it hit
    unfold countdown_loop at hit
    split at hit <;> simp at hit
  | cons i rest ih =>
    intro it hit
    simp only [countdown_loop] at hit
    split at hit
    · simp at hit
    · split at hit
      · simp at hit
      · split at hit
        · dsimp only at hit
          simp only [List.mem_cons] at hit
          rcases hit with hit | hit
          · subst hit; exact Nat.le_refl _
          · exact ih ⟨s.remaining, true⟩ it hit
        · dsimp only at hit
          simp only [List.mem_cons] at hit
          rcases hit with hit | hit
          · subst hit; exact Nat.le_refl _
          · exact Nat.le_trans (ih ⟨s.remaining - 1, false⟩ it hit) (Nat.sub_le _ _)

lemma countdown_trace_notif (total : Nat) (inputs : List Input)
    (s : TimerState) :
    ∀ it ∈ (countdown_loop total inputs s).1,
      it.notif = [] ∨ it.notif = play_time_notification it.remaining total := by
  induction inputs generalizing s with
  | nil =>
    intro it hit
    unfold countdown_loop at hit
    split at hit <;> simp at hit
  | cons i rest ih =>
    intro it hit
    simp only [countdown_loop] at hit
    split at hit
    · simp at hit
    · split at hit
      · simp at hit
      · split at hit
        · dsimp only at hit
          simp only [List.mem_cons] at hit
          rcases hit with hit | hit
          · subst hit; exact Or.inl rfl
          · exact ih ⟨s.remaining, true⟩ it hit
        · dsimp only at hit
          simp only [List.mem_cons] at hit
          rcases hit with hit | hit
          · subst hit; exact Or.inr rfl
          · exact ih ⟨s.remaining - 1, false⟩ it hit

/-- C4: over any session run — any sequence of key inputs, pauses and
resumes — each notification clip is played by `play_time_notification`
in at most one loop iteration: the scheduler never refires for the same
remaining value, and paused iterations never evaluate notifications, so
a pause/resume sequence cannot cause a double firing. -/
theorem notification_fires_at_most_once (total : Nat) (inputs : List Input)
    (s : TimerState) (n : Sound) :
    ((countdown_loop total inputs s).1.countP
        (fun it => decide (n ∈ it.notif))) ≤ 1 := by
  induction inputs generalizing s with
  | nil =>
    unfold countdown_loop
    split <;> simp
  | cons i rest ih =>
    simp only [countdown_loop]
    split
    · simp
    · split
      · simp
      · split
        · dsimp only
          simp only [List.countP_cons]
          simp
          exact ih _
        · next h0 _ _ =>
          dsimp only
          simp only [List.countP_cons]
          by_cases hn : n ∈ play_time_notification s.remaining total
          · have htrig := mem_play_eq_trigger n s.remaining total hn
            have hzero : ((countdown_loop total rest
                ⟨s.remaining - 1, false⟩).1.countP
                  (fun it => decide (n ∈ it.notif))) = 0 := by
              rw [List.countP_eq_zero]
              intro it hit
              simp only [decide_eq_true_eq]
              intro hmem
              have hle : it.remaining ≤ s.remaining - 1 :=
                countdown_trace_remaining_le total rest ⟨s.remaining - 1, false⟩ it hit
              rcases countdown_trace_notif total rest ⟨s.remaining - 1, false⟩ it hit with
                hnil | hplay
              · rw [hnil] at hmem
                simp at hmem
              · rw [hplay] at hmem
                have htrig' := mem_play_eq_trigger n it.remaining total hmem
                omega
            simp [hzero, hn]
          · simp [hn]
            exact ih _

/-- The terminal raw-mode bookkeeping of `countdown`: `old_settings` is
`true` while the saved termios settings are held; `restores` counts
`termios.tcsetattr` restore calls actually performed. -/
structure TermSettings where
  old_settings : Bool
  restores : Nat
deriving DecidableEq

/-- One guarded restore block of the source (`if self.old_settings ...:
tcsetattr; self.old_settings = None`): restores and clears only when
the settings are still held, otherwise does nothing. -/
def restore_terminal_settings (s : TermSettings) : TermSettings :=
  if s.old_settings then { old_settings := false, restores := s.restores + 1 }
  else s

/-- The three ways the `try` body of `countdown` can exit: normal
completion, `KeyboardInterrupt`, or any other unexpected fault. -/
inductive ExitPath where
  | completedExit
  | stoppedExit
  | faultExit
deriving DecidableEq

/-- Restore calls performed by `countdown` on each exit path: the
completion branch (lines 464-470) and the `KeyboardInterrupt` handler
(lines 505-510) each run a guarded restore, an unexpected fault runs
none, and the `finally` block (lines 531-538) always runs one more
guarded restore. -/
def countdown_terminal_releases (path : ExitPath) (acquired : Bool) : Nat :=
  have s0 : TermSettings := ⟨acquired, 0⟩
  have s1 := match path with
    | ExitPath.completedExit => restore_terminal_settings s0
    | ExitPath.stoppedExit => restore_terminal_settings s0
    | ExitPath.faultExit => s0
  (restore_terminal_settings s1).restores

/-- C6: when raw terminal mode was successfully acquired, every exit
path of `countdown` — Completed, Stopped, or unexpected fault — restores
the prior terminal input mode exactly once: the guarded restore clears
`old_settings`, so the `finally` block never performs a second restore,
and the fault path is covered by `finally`. -/
theorem terminal_mode_released_once (path : ExitPath) :
    countdown_terminal_releases path true = 1 := by
  cases path <;> rfl

/-- One step of the background `reminder_loop` thread schedule: the
initial 5-minute sleep, then repeating cycles of flag check, first
playback, second playback, 5-minute wait. -/
inductive ReminderPhase where
  | initialWait
  | checkFlag
  | play1
  | play2
  | wait5min
deriving DecidableEq

/-- The phase the reminder thread executes at step index `i`: step 0 is
the initial `time.sleep(5 * 60)`; afterwards each cycle of four steps
is check-flag, play, play, `time.sleep(5 * 60)` — the `reminder_active`
flag is read only at the check-flag step at the top of the `while`
loop. -/
def reminder_phase : Nat → ReminderPhase
  | 0 => ReminderPhase.initialWait
  | i + 1 =>
    match i % 4 with
    | 0 => ReminderPhase.checkFlag
    | 1 => ReminderPhase.play1
    | 2 => ReminderPhase.play2
    | _ => ReminderPhase.wait5min

/-- The phases the reminder thread still executes after
`stop_reminder_thread` clears the flag just before step `c`, up to (and
not including) the next flag check, where the loop exits; a flag check
always occurs within the 5-step window. -/
def phases_after_stop (c : Nat) : List ReminderPhase :=
  ((List.range 5).map (fun k => reminder_phase (c + k))).takeWhile
    (fun ph => ph != ReminderPhase.checkFlag)

lemma phases_after_stop_eq (c : Nat) :
    phases_after_stop c =
      if c = 0 then [ReminderPhase.initialWait]
      else match (c - 1) % 4 with
        | 0 => []
        | 1 => [ReminderPhase.play1, ReminderPhase.play2, ReminderPhase.wait5min]
        | 2 => [ReminderPhase.play2, ReminderPhase.wait5min]
        | _ => [ReminderPhase.wait5min] := by
  match c with
  | 0 => decide
  | d + 1 =>
    have hd : d % 4 = 0 ∨ d % 4 = 1 ∨ d % 4 = 2 ∨ d % 4 = 3 := by omega
    have hr : List.range 5 = [0, 1, 2, 3, 4] := rfl
    rcases hd with h | h | h | h
    · have e0 : reminder_phase (d + 1 + 0) = ReminderPhase.checkFlag := by
        simp [reminder_phase, h]
      simp [phases_after_stop, hr, e0, h, List.takeWhile]
    · have h1 : (d + 1) % 4 = 2 := by omega
      have h2 : (d + 2) % 4 = 3 := by omega
      have h3 : (d + 3) % 4 = 0 := by omega
      have e0 : reminder_phase (d + 1 + 0) = ReminderPhase.play1 := by
        simp [reminder_phase, h]
      have e1 : reminder_phase (d + 1 + 1) = ReminderPhase.play2 := by
        show reminder_phase (d + 1 + 1) = _
        have : d + 1 + 1 = (d + 1) + 1 := rfl
        simp [reminder_phase, h1]
      have e2 : reminder_phase (d + 1 + 2) = ReminderPhase.wait5min := by
        have : d + 1 + 2 = (d + 2) + 1 := rfl
        rw [this]
        simp [reminder_phase, h2]
      have e3 : reminder_phase (d + 1 + 3) = ReminderPhase.checkFlag := by
        have : d + 1 + 3 = (d + 3) + 1 := rfl
        rw [this]
        simp [reminder_phase, h3]
      simp [phases_after_stop, hr, e0, e1, e2, e3, h, List.takeWhile]
      decide
    · have h1 : (d + 1) % 4 = 3 := by omega
      have h2 : (d + 2) % 4 = 0 := by omega
      have e0 : reminder_phase (d + 1 + 0) = ReminderPhase.play2 := by
        simp [reminder_phase, h]
      have e1 : reminder_phase (d + 1 + 1) = ReminderPhase.wait5min := by
        have : d + 1 + 1 = (d + 1) + 1 := rfl
        rw [this]
        simp [reminder_phase, h1]
      have e2 : reminder_phase (d + 1 + 2) = ReminderPhase.checkFlag := by
        have : d + 1 + 2 = (d + 2) + 1 := rfl
        rw [this]
        simp [reminder_phase, h2]
      simp [phases_after_stop, hr, e0, e1, e2, h, List.takeWhile]
      decide
    · have h1 : (d + 1) % 4 = 0 := by omega
      have e0 : reminder_phase (d + 1 + 0) = ReminderPhase.wait5min := by
        simp [reminder_phase, h]
      have e1 : reminder_phase (d + 1 + 1) = ReminderPhase.checkFlag := by
        have : d + 1 + 1 = (d + 1) + 1 := rfl
        rw [this]
        simp [reminder_phase, h1]
      simp [phases_after_stop, hr, e0, e1, h, List.takeWhile]
      decide

/-- C9 counterexample: when Stop clears the flag just after a flag
check (step index 2, i.e. during or right before the first playback of
a cycle), the reminder thread still performs both playbacks AND the
full 5-minute wait of that cycle before it next observes the flag —
strictly more than one wait-interval or one playback of latency after
cancellation. -/
theorem reminder_stop_full_wait_after_cancel :
    phases_after_stop 2 =
        [ReminderPhase.play1, ReminderPhase.play2, ReminderPhase.wait5min] ∧
      ReminderPhase.wait5min ∈ phases_after_stop 2 ∧
      ReminderPhase.play1 ∈ phases_after_stop 2 := by
  decide

/-- C9 (amended): after Stop clears the flag, the reminder thread exits
at its next flag check, which occurs within at most 4 further steps; it
executes at most the remainder of the current cycle before exiting — at
most one further 5-minute wait and at most one further instance of each
playback, and never a second full cycle. -/
theorem reminder_stop_exits_within_one_cycle (c : Nat) :
    (phases_after_stop c).length ≤ 3 ∧
      (phases_after_stop c).count ReminderPhase.wait5min ≤ 1 ∧
      (phases_after_stop c).count ReminderPhase.play1 ≤ 1 ∧
      (phases_after_stop c).count ReminderPhase.play2 ≤ 1 ∧
      ∃ k, k ≤ 4 ∧ reminder_phase (c + k) = ReminderPhase.checkFlag := by
  refine ⟨?_, ?_, ?_, ?_, ?_⟩
  · rw [phases_after_stop_eq c]
    split
    · decide
    · split <;> decide
  · rw [phases_after_stop_eq c]
    split
    · decide
    · split <;> decide
  · rw [phases_after_stop_eq c]
    split
    · decide
    · split <;> decide
  · rw [phases_after_stop_eq c]
    split
    · decide
    · split <;> decide
  · cases c with
    | zero => exact ⟨1, by omega, rfl⟩
    | succ d =>
      have hd : d % 4 = 0 ∨ d % 4 = 1 ∨ d % 4 = 2 ∨ d % 4 = 3 := by omega
      rcases hd with h | h | h | h
      · exact ⟨0, by omega, by simp [reminder_phase, h]⟩
      · refine ⟨3, by omega, ?_⟩
        have he : d + 1 + 3 = (d + 3) + 1 := rfl
        have h3 : (d + 3) % 4 = 0 := by omega
        rw [he]
        simp [reminder_phase, h3]
      · refine ⟨2, by omega, ?_⟩
        have he : d + 1 + 2 = (d + 2) + 1 := rfl
        have h2 : (d + 2) % 4 = 0 := by omega
        rw [he]
        simp [reminder_phase, h2]
      · refine ⟨1, by omega, ?_⟩
        have he : d + 1 + 1 = (d + 1) + 1 := rfl
        have h1 : (d + 1) % 4 = 0 := by omega
        rw [he]
        simp [reminder_phase, h1]

/-- The action trace of one main-loop session: `get_user_input` calls
`stop_reminder_thread` first (line 543), `main` writes the start log,
then `countdown` runs — one `tick` per unpaused iteration — and the
exit path appends its finalization actions (`startReminder` only on
completion). -/
def session_trace (total : Nat) (inputs : List Input) : List TimerAction :=
  TimerAction.stopReminder :: TimerAction.logStart ::
    (((countdown_loop total inputs ⟨total, false⟩).1.filterMap
        (fun it => if it.ticked then some TimerAction.tick else none)) ++
      (match (countdown_loop total inputs ⟨total, false⟩).2 with
        | RunOut.out o => session_final_actions o
        | RunOut.going _ => []))

/-- The action trace of the whole `main` loop over a list of sessions,
each given by its duration and its per-iteration inputs. -/
def main_trace (sessions : List (Nat × List Input)) : List TimerAction :=
  sessions.flatMap (fun p => session_trace p.1 p.2)

lemma ticks_count_start (l : List IterLog) :
    ((l.filterMap (fun it => if it.ticked then some TimerAction.tick else none)).count
      TimerAction.startReminder) = 0 := by
  rw [List.count_eq_zero]
  intro hmem
  rw [List.mem_filterMap] at hmem
  obtain ⟨a, -, ha⟩ := hmem
  split at ha <;> simp at ha

lemma session_count_start_le_one (t : Nat) (i : List Input) :
    (session_trace t i).count TimerAction.startReminder ≤ 1 := by
  unfold session_trace
  rcases h2 : (countdown_loop t i ⟨t, false⟩).2 with o | st
  · cases o <;>
      simp [session_final_actions, List.count_cons, List.count_append,
        ticks_count_start]
  · simp [List.count_cons, List.count_append, ticks_count_start]

lemma session_trace_prefix_balance (t : Nat) (i : List Input) (n : Nat) :
    (((session_trace t i).take n).count TimerAction.startReminder ≤
      ((session_trace t i).take n).count TimerAction.stopReminder) := by
  cases n with
  | zero => simp
  | succ m =>
    have hhead : session_trace t i =
        TimerAction.stopReminder :: (session_trace t i).tail := rfl
    rw [hhead, List.take_succ_cons, List.count_cons, List.count_cons]
    have hx : (((session_trace t i).tail.take m).count TimerAction.startReminder) ≤ 1 := by
      refine le_trans (List.Sublist.count_le ?_ _) (session_count_start_le_one t i)
      exact List.Sublist.trans (List.take_sublist m _) (List.tail_sublist _)
    simp only [beq_iff_eq, reduceCtorEq, if_false, if_true]
    omega

lemma prefix_balance_append (a b : List TimerAction)
    (ha : ∀ n, ((a.take n).count TimerAction.startReminder ≤
      (a.take n).count TimerAction.stopReminder))
    (hb : ∀ n, ((b.take n).count TimerAction.startReminder ≤
      (b.take n).count TimerAction.stopReminder))
    (n : Nat) :
    ((((a ++ b).take n).count TimerAction.startReminder) ≤
      (((a ++ b).take n).count TimerAction.stopReminder)) := by
  rw [List.take_append_eq_append_take, List.count_append, List.count_append]
  exact Nat.add_le_add (ha n) (hb (n - a.length))

/-- C8 (amended): starting any session invokes `stop_reminder_thread`
before anything else — in particular before the session's first tick —
so in every prefix of the main program's action trace the reminder
starts never outnumber the reminder stops: at most one reminder loop is
active, as far as the main thread's start/stop discipline goes.  (The
stronger "at most one reminder thread alive at any time" fails: see the
interleaving counterexample below.) -/
theorem reminder_stop_precedes_new_session
    (sessions : List (Nat × List Input)) (n : Nat) :
    (∀ (total : Nat) (inputs : List Input),
        (session_trace total inputs).head? = some TimerAction.stopReminder) ∧
      (((main_trace sessions).take n).count TimerAction.startReminder ≤
        ((main_trace sessions).take n).count TimerAction.stopReminder) := by
  refine ⟨fun _ _ => rfl, ?_⟩
  induction sessions generalizing n with
  | nil => simp [main_trace]
  | cons p ps ih =>
    have hm : main_trace (p :: ps) = session_trace p.1 p.2 ++ main_trace ps := rfl
    rw [hm]
    exact prefix_balance_append _ _ (session_trace_prefix_balance p.1 p.2) ih n

/-- Program counter of one spawned `reminder_loop` thread: in a sleep
(`time.sleep(5 * 60)`, initial or end-of-cycle), about to read
`reminder_active` at the top of the `while` loop, playing the two
reminder clips, or exited. -/
inductive RemPC where
  | waitPC
  | checkPC
  | playPC
  | deadPC
deriving DecidableEq

/-- The shared reminder state: the `reminder_active` flag and the
program counters of every `reminder_loop` thread spawned so far. -/
structure RemSys where
  reminder_active : Bool
  threads : List RemPC
deriving DecidableEq

/-- An interleaving event: `stop_reminder_thread` (clears the flag;
`join(timeout=1)` does not terminate a thread sleeping 5 minutes),
`start_reminder_thread` (sets the flag and spawns a new thread that
begins with the initial sleep), or one scheduled step of thread `i`. -/
inductive RemEvent where
  | stopEvent
  | startEvent
  | threadStep (i : Nat)
deriving DecidableEq

/-- Interleaving semantics of `start_reminder_thread` /
`stop_reminder_thread` / `reminder_loop`: a thread leaving a sleep
reaches the flag check; a flag check under the lock continues into
playback when `reminder_active` is true and exits the loop when it is
false; playback returns to the end-of-cycle sleep.  The flag is read
nowhere else, matching the source. -/
def rem_event_step (s : RemSys) (e : RemEvent) : RemSys :=
  match e with
  | RemEvent.stopEvent => { s with reminder_active := false }
  | RemEvent.startEvent =>
      { reminder_active := true, threads := s.threads ++ [RemPC.waitPC] }
  | RemEvent.threadStep i =>
      match s.threads[i]? with
      | some RemPC.waitPC => { s with threads := s.threads.set i RemPC.checkPC }
      | some RemPC.checkPC =>
          if s.reminder_active then
            { s with threads := s.threads.set i RemPC.playPC }
          else { s with threads := s.threads.set i RemPC.deadPC }
      | some RemPC.playPC => { s with threads := s.threads.set i RemPC.waitPC }
      | _ => s

/-- Run an interleaving from the initial state (flag down, no thread). -/
def rem_run (events : List RemEvent) : RemSys :=
  events.foldl rem_event_step ⟨false, []⟩

/-- Number of reminder threads spawned and not yet exited. -/
def alive_reminder_threads (s : RemSys) : Nat :=
  s.threads.countP (fun pc => pc != RemPC.deadPC)

/-- C8 counterexample: the event list models session 1 beginning
(`stop`, a no-op), completing (`start`, spawning thread 0), session 2
beginning (`stop` — invoked, as the claim demands, before its first
tick) and completing quickly (`start`, spawning thread 1) while thread
0 is still inside its 5-minute sleep (`join(timeout=1)` cannot outwait
it); thread 0 then wakes, reads the re-raised shared flag, and resumes
playback.  Two reminder loops are alive — the stopped one is even
playing — although every prefix of the event list has stops ≥ starts. -/
theorem two_reminder_loops_alive_after_stop :
    alive_reminder_threads (rem_run
        [RemEvent.stopEvent, RemEvent.startEvent, RemEvent.stopEvent,
          RemEvent.startEvent, RemEvent.threadStep 0, RemEvent.threadStep 0]) = 2 ∧
      (rem_run
          [RemEvent.stopEvent, RemEvent.startEvent, RemEvent.stopEvent,
            RemEvent.startEvent, RemEvent.threadStep 0, RemEvent.threadStep 0]).threads =
        [RemPC.playPC, RemPC.waitPC] ∧
      ((List.range 7).all fun n =>
        decide ((([RemEvent.stopEvent, RemEvent.startEvent, RemEvent.stopEvent,
            RemEvent.startEvent, RemEvent.threadStep 0, RemEvent.threadStep 0].take n).count
              RemEvent.startEvent) ≤
          (([RemEvent.stopEvent, RemEvent.startEvent, RemEvent.stopEvent,
              RemEvent.startEvent, RemEvent.threadStep 0, RemEvent.threadStep 0].take n).count
            RemEvent.stopEvent))) = true := by
  decide
